import Mathlib

set_option maxRecDepth 20000
set_option maxHeartbeats 2000000

/-! # Verification of the Memories chat-parsing engine

Shallow embedding of `src/backend/src/core/parsing/parser.rs`
(`parse_whatsapp_chat`, `parse_whatsapp_timestamp`) and of
`src/backend/src/chat_parser/src/lib.rs` (`ChatParser`: `parse_chat`,
`detect_senders`, `parse_timestamp`, `detect_message_type`).

Text is modelled as `List Char`.  The regular expressions of the source are
embedded as executable matchers that reproduce the backtracking semantics of
the Rust `regex` crate on the concrete pattern shapes occurring in the source
(greedy/lazy repetition, optional groups, `.` not matching a newline,
anchors).  `\s` and `str::trim` are modelled over ASCII whitespace, which is
the only whitespace the patterns and inputs in this development use. -/

abbrev Line := List Char

def s2l (s : String) : Line := s.data

/-- ASCII whitespace, as matched by `\s` and trimmed by `str::trim`. -/
def isWs (c : Char) : Bool :=
  c == ' ' || c == '\t' || c == '\n' || c == '\r' ||
  c == Char.ofNat 11 || c == Char.ofNat 12

/-- `str::trim`: remove leading and trailing whitespace. -/
def trimL (s : Line) : Line :=
  ((s.dropWhile isWs).reverse.dropWhile isWs).reverse

/-! ## Regex building blocks -/

/-- A single literal character. -/
def pChar (c : Char) : Line → Option Line
  | [] => none
  | x :: r => if x = c then some r else none

/-- A literal string. -/
def pStr : Line → Line → Option Line
  | [], s => some s
  | _ :: _, [] => none
  | c :: cs, x :: xs => if x = c then pStr cs xs else none

/-- `\d{lo,hi}` followed (in every pattern of the source) by a non-digit
token: the regex can then only match the maximal run of leading digits, so
the match succeeds exactly when that run's length lies in `[lo, hi]`. -/
def pDig (lo hi : Nat) (s : Line) : Option (Line × Line) :=
  if lo ≤ (s.takeWhile Char.isDigit).length ∧
      (s.takeWhile Char.isDigit).length ≤ hi then
    some (s.takeWhile Char.isDigit, s.dropWhile Char.isDigit)
  else none

/-- `(?:AM|PM|am|pm)`. -/
def pMer : Line → Option (Line × Line)
  | 'A' :: 'M' :: r => some (['A', 'M'], r)
  | 'P' :: 'M' :: r => some (['P', 'M'], r)
  | 'a' :: 'm' :: r => some (['a', 'm'], r)
  | 'p' :: 'm' :: r => some (['p', 'm'], r)
  | _ => none

/-- `([^:]+): ` — the class cannot cross a colon, so the capture is exactly
the (nonempty) text before the first colon, which must be followed by
`': '`. -/
def pSender (s : Line) : Option (Line × Line) :=
  match s.dropWhile (fun c => !(c == ':')) with
  | c1 :: c2 :: r =>
    if c1 = ':' ∧ c2 = ' ' ∧ s.takeWhile (fun c => !(c == ':')) ≠ [] then
      some (s.takeWhile (fun c => !(c == ':')), r)
    else none
  | _ => none

/-- `(.+)$` — nonempty rest of the line; `.` does not match a newline. -/
def pRest (s : Line) : Option Line :=
  match s with
  | [] => none
  | _ => if s.any (fun c => c == '\n') then none else some s

/-- Shared prefix `\d{1,2}/\d{1,2}/\d{ylo,4}, \d{1,2}:\d{2}` of the header
patterns 2-4 and of the system-line pattern of `parse_whatsapp_chat`;
returns the matched text and the rest. -/
def pDatePrefix (ylo : Nat) (l : Line) : Option (Line × Line) :=
  match pDig 1 2 l with
  | none => none
  | some d =>
  match pChar '/' d.2 with
  | none => none
  | some s1 =>
  match pDig 1 2 s1 with
  | none => none
  | some mo =>
  match pChar '/' mo.2 with
  | none => none
  | some s2 =>
  match pDig ylo 4 s2 with
  | none => none
  | some y =>
  match pStr (s2l ", ") y.2 with
  | none => none
  | some s3 =>
  match pDig 1 2 s3 with
  | none => none
  | some h =>
  match pChar ':' h.2 with
  | none => none
  | some s4 =>
  match pDig 2 2 s4 with
  | none => none
  | some mi =>
  some (d.1 ++ '/' :: mo.1 ++ '/' :: y.1 ++ ',' :: ' ' :: h.1 ++ ':' :: mi.1,
        mi.2)

/-! ## parser.rs: the four header patterns and the system-line pattern -/

/-- The bracketed timestamp body of pattern 1:
`\d{1,2}/\d{1,2}/\d{4}, \d{1,2}:\d{2}:\d{2}` (capture text and rest). -/
def pTs1 (s0 : Line) : Option (Line × Line) :=
  match pDig 1 2 s0 with
  | none => none
  | some d =>
  match pChar '/' d.2 with
  | none => none
  | some s1 =>
  match pDig 1 2 s1 with
  | none => none
  | some mo =>
  match pChar '/' mo.2 with
  | none => none
  | some s2 =>
  match pDig 4 4 s2 with
  | none => none
  | some y =>
  match pStr (s2l ", ") y.2 with
  | none => none
  | some s3 =>
  match pDig 1 2 s3 with
  | none => none
  | some h =>
  match pChar ':' h.2 with
  | none => none
  | some s4 =>
  match pDig 2 2 s4 with
  | none => none
  | some mi =>
  match pChar ':' mi.2 with
  | none => none
  | some s5 =>
  match pDig 2 2 s5 with
  | none => none
  | some sec =>
  some (d.1 ++ '/' :: mo.1 ++ '/' :: y.1 ++ ',' :: ' ' :: h.1 ++
          ':' :: mi.1 ++ ':' :: sec.1,
        sec.2)

/-- `^\[(\d{1,2}/\d{1,2}/\d{4}, \d{1,2}:\d{2}:\d{2})\] ([^:]+): (.+)$` -/
def pat1 (l : Line) : Option (Line × Line × Line) :=
  match pChar '[' l with
  | none => none
  | some s0 =>
  match pTs1 s0 with
  | none => none
  | some ts =>
  match pStr (s2l "] ") ts.2 with
  | none => none
  | some s6 =>
  match pSender s6 with
  | none => none
  | some sd =>
  match pRest sd.2 with
  | none => none
  | some ct => some (ts.1, sd.1, ct)

/-- `^(\d{1,2}/\d{1,2}/\d{2,4}, \d{1,2}:\d{2} (?:AM|PM|am|pm)) - ([^:]+): (.+)$` -/
def pat2 (l : Line) : Option (Line × Line × Line) :=
  match pDatePrefix 2 l with
  | none => none
  | some dt =>
  match pChar ' ' dt.2 with
  | none => none
  | some s1 =>
  match pMer s1 with
  | none => none
  | some mer =>
  match pStr (s2l " - ") mer.2 with
  | none => none
  | some s2 =>
  match pSender s2 with
  | none => none
  | some sd =>
  match pRest sd.2 with
  | none => none
  | some ct => some (dt.1 ++ ' ' :: mer.1, sd.1, ct)

/-- `^(\d{1,2}/\d{1,2}/\d{4}, \d{1,2}:\d{2}) - ([^:]+): (.+)$` -/
def pat3 (l : Line) : Option (Line × Line × Line) :=
  match pDatePrefix 4 l with
  | none => none
  | some dt =>
  match pStr (s2l " - ") dt.2 with
  | none => none
  | some s1 =>
  match pSender s1 with
  | none => none
  | some sd =>
  match pRest sd.2 with
  | none => none
  | some ct => some (dt.1, sd.1, ct)

/-- `^(\d{1,2}/\d{1,2}/\d{2,4}, \d{1,2}:\d{2}) - ([^:]+): (.+)$` -/
def pat4 (l : Line) : Option (Line × Line × Line) :=
  match pDatePrefix 2 l with
  | none => none
  | some dt =>
  match pStr (s2l " - ") dt.2 with
  | none => none
  | some s1 =>
  match pSender s1 with
  | none => none
  | some sd =>
  match pRest sd.2 with
  | none => none
  | some ct => some (dt.1, sd.1, ct)

/-- The patterns are tried in order; the first match wins.  Returns the three
capture groups (timestamp text, sender, content). -/
def headerCapture (l : Line) : Option (Line × Line × Line) :=
  match pat1 l with
  | some x => some x
  | none =>
    match pat2 l with
    | some x => some x
    | none =>
      match pat3 l with
      | some x => some x
      | none => pat4 l

/-- `^\d{1,2}/\d{1,2}/\d{2,4}, \d{1,2}:\d{2} (?:AM|PM|am|pm) - [^:]*$` -/
def systemLine (l : Line) : Bool :=
  match pDatePrefix 2 l with
  | none => false
  | some dt =>
  match pChar ' ' dt.2 with
  | none => false
  | some s1 =>
  match pMer s1 with
  | none => false
  | some mer =>
  match pStr (s2l " - ") mer.2 with
  | none => false
  | some s2 => !(s2.any fun c => c == ':')

/-! ## parser.rs: system-content patterns and message-type classification -/

/-- Substring search: the nine system patterns are all regex-literal, so
`is_match` is substring containment. -/
def infixIn (pat : Line) : Line → Bool
  | [] => pat.isEmpty
  | c :: r => pat.isPrefixOf (c :: r) || infixIn pat r

def sysPats : List Line :=
  [s2l "Messages and calls are end-to-end encrypted",
   s2l "You created group",
   s2l "created this group",
   s2l "added you",
   s2l "removed",
   s2l "left",
   s2l "Security code changed",
   s2l "<Media omitted>",
   s2l "This message was deleted"]

def isSysContent (c : Line) : Bool := sysPats.any fun p => infixIn p c

def mediaMark : Line := s2l "<Media omitted>"

/-- The message-type block of `parse_whatsapp_chat`, applied when a message
is sealed (both in the loop and at end of input). -/
def classifyW (c : Line) : String :=
  if infixIn mediaMark c then "media"
  else if (s2l "https://").isPrefixOf c || (s2l "http://").isPrefixOf c then
    "link"
  else "text"

/-! ## parser.rs: `parse_whatsapp_timestamp` -/

def dVal (ds : Line) : Nat := ds.foldl (fun a c => 10 * a + (c.toNat - 48)) 0

/-- `(\d{2})`: exactly two digit characters (no boundary assertion). -/
def d2 : Line → Option (Nat × Line)
  | c1 :: c2 :: r =>
    if c1.isDigit ∧ c2.isDigit then some (dVal [c1, c2], r) else none
  | _ => none

/-- `(\d{4})`: exactly four digit characters. -/
def d4 : Line → Option (Nat × Line)
  | c1 :: c2 :: c3 :: c4 :: r =>
    if c1.isDigit ∧ c2.isDigit ∧ c3.isDigit ∧ c4.isDigit then
      some (dVal [c1, c2, c3, c4], r)
    else none
  | _ => none

/-- Anchored match of `(\d{2})/(\d{2})/(\d{4}), (\d{2}):(\d{2}):(\d{2})`
at the start of `s`, yielding (day, month, year, hour, minute, second). -/
def matchTsAt (s : Line) : Option (Nat × Nat × Nat × Nat × Nat × Nat) :=
  match d2 s with
  | none => none
  | some d =>
  match pChar '/' d.2 with
  | none => none
  | some s1 =>
  match d2 s1 with
  | none => none
  | some mo =>
  match pChar '/' mo.2 with
  | none => none
  | some s2 =>
  match d4 s2 with
  | none => none
  | some y =>
  match pStr (s2l ", ") y.2 with
  | none => none
  | some s3 =>
  match d2 s3 with
  | none => none
  | some h =>
  match pChar ':' h.2 with
  | none => none
  | some s4 =>
  match d2 s4 with
  | none => none
  | some mi =>
  match pChar ':' mi.2 with
  | none => none
  | some s5 =>
  match d2 s5 with
  | none => none
  | some sec => some (d.1, mo.1, y.1, h.1, mi.1, sec.1)

/-- Unanchored (leftmost) search of the timestamp pattern. -/
def searchTs : Line → Option (Nat × Nat × Nat × Nat × Nat × Nat)
  | [] => none
  | c :: r =>
    match matchTsAt (c :: r) with
    | some x => some x
    | none => searchTs r

def isLeap (y : Nat) : Bool :=
  (y % 4 == 0 && y % 100 != 0) || y % 400 == 0

def daysInMonth (y mo : Nat) : Nat :=
  if mo = 2 then (if isLeap y then 29 else 28)
  else if mo = 4 ∨ mo = 6 ∨ mo = 9 ∨ mo = 11 then 30
  else 31

/-- `NaiveDate::from_ymd_opt` succeeds exactly on these components. -/
def validYmd (y mo d : Nat) : Bool :=
  decide (1 ≤ mo) && decide (mo ≤ 12) && decide (1 ≤ d) &&
  decide (d ≤ daysInMonth y mo)

/-- `NaiveTime::from_hms_opt` succeeds exactly on these components. -/
def validHms (h mi s : Nat) : Bool :=
  decide (h < 24) && decide (mi < 60) && decide (s < 60)

/-- Calendar date and time of day (the information content of the emitted
timestamp; `parse_whatsapp_chat` serializes it with `to_rfc3339`). -/
structure NDT where
  year : Nat
  month : Nat
  day : Nat
  hour : Nat
  minute : Nat
  second : Nat
deriving DecidableEq, Repr

/-- `parse_whatsapp_timestamp`: searches the timestamp pattern in the
captured text; on a match, `from_ymd_opt(...).unwrap_or_default()` and
`from_hms_opt(...).unwrap_or_default()` substitute 1970-01-01 resp.
00:00:00 for out-of-range components (so the source's subsequent
`"Invalid date/time components"` arm is unreachable and the call
succeeds whenever the shape matches). -/
def parseWTimestamp (s : Line) : Except String NDT :=
  match searchTs s with
  | some (d, mo, y, h, mi, sec) =>
    if validYmd y mo d then
      if validHms h mi sec then .ok ⟨y, mo, d, h, mi, sec⟩
      else .ok ⟨y, mo, d, 0, 0, 0⟩
    else
      if validHms h mi sec then .ok ⟨1970, 1, 1, h, mi, sec⟩
      else .ok ⟨1970, 1, 1, 0, 0, 0⟩
  | none => .error "Timestamp doesn't match expected format"

/-! ## parser.rs: the segmenter `parse_whatsapp_chat` -/

/-- An emitted message (the Python dict built at sealing time).
`tsOffset` is the offset of the rfc3339 serialization; `Utc` prints
`+00:00`, i.e. offset `0`. -/
structure WMsg where
  id : String
  ts : NDT
  tsOffset : Int
  sender : Line
  content : Line
  mtype : String
deriving DecidableEq, Repr

/-- The in-progress accumulator (`current_message`); its `id` and
`message_type` fields are overwritten at sealing, so only the parts that
survive are modelled. -/
structure Pend where
  ts : NDT
  sender : Line
  content : Line
deriving DecidableEq, Repr

structure PSt where
  msgs : List WMsg
  mid : Nat
  pending : Option Pend
deriving DecidableEq, Repr

inductive PErr where
  | ioError (msg : String)
  | invalidTimestamp (msg : String)
deriving DecidableEq, Repr

def mkId (n : Nat) : String := "msg_" ++ toString n

/-- Sealing: `message_id += 1`, classify the assembled content, push the
message. -/
def sealP (st : PSt) : PSt :=
  match st.pending with
  | none => st
  | some p =>
    ⟨st.msgs ++
       [⟨mkId (st.mid + 1), p.ts, 0, p.sender, p.content,
         classifyW p.content⟩],
     st.mid + 1, none⟩

/-- One iteration of the line loop of `parse_whatsapp_chat`. -/
def stepLine (st : PSt) (l : Line) : Except PErr PSt :=
  if systemLine l then .ok st
  else
    match headerCapture l with
    | some (ts, sd, ct) =>
      let st1 := sealP st
      if isSysContent ct then .ok { st1 with pending := none }
      else
        match parseWTimestamp ts with
        | .ok dt => .ok { st1 with pending := some ⟨dt, sd, ct⟩ }
        | .error e =>
          .error (.invalidTimestamp ("Failed to parse timestamp: " ++ e))
    | none =>
      match st.pending with
      | some p =>
        .ok { st with pending := some ⟨p.ts, p.sender, p.content ++ '\n' :: l⟩ }
      | none => .ok st

def initSt : PSt := ⟨[], 0, none⟩

def runW : PSt → List Line → Except PErr PSt
  | st, [] => .ok st
  | st, l :: ls =>
    match stepLine st l with
    | .ok st1 => runW st1 ls
    | .error e => .error e

/-- `parse_whatsapp_chat` on decoded lines (the `user_identity` argument is
accepted by the source but never consumed). -/
def parseW (ls : List Line) : Except PErr (List WMsg) :=
  match runW initSt ls with
  | .ok st => .ok (sealP st).msgs
  | .error e => .error e

/-- One iteration over a `BufReader::lines()` item, which is an io `Result`:
an `Err` item aborts the whole call with `IoError`. -/
def stepR (st : PSt) (l : Except String Line) : Except PErr PSt :=
  match l with
  | .error e => .error (.ioError ("Failed to read line: " ++ e))
  | .ok line => stepLine st line

def runR : PSt → List (Except String Line) → Except PErr PSt
  | st, [] => .ok st
  | st, l :: ls =>
    match stepR st l with
    | .ok st1 => runR st1 ls
    | .error e => .error e

/-- `parse_whatsapp_chat` on the raw line stream (io results included). -/
def parseWR (ls : List (Except String Line)) : Except PErr (List WMsg) :=
  match runR initSt ls with
  | .ok st => .ok (sealP st).msgs
  | .error e => .error e

/-! ## lib.rs: `ChatParser` — the single `message_pattern`

`^\[?(\d{1,2}/\d{1,2}/\d{2,4},?\s+\d{1,2}:\d{2}(?::\d{2})?)\]?\s+(.+?):\s+(.+)$`
-/

/-- `\[?`: consume an optional opening bracket (a digit must follow, so the
bracket, when present, can only be consumed). -/
def optOpen (l : Line) : Line :=
  match l with
  | '[' :: r => r
  | _ => l

/-- `,?`: consume an optional comma, returning the matched text. -/
def optComma (s : Line) : Line × Line :=
  match s with
  | ',' :: r => ([','], r)
  | _ => ([], s)

/-- `(?::\d{2})?`: optional seconds; taking the group is the only branch
that can succeed when a colon follows, since the continuation `\]?\s+`
matches neither a colon nor a digit. -/
def optSec (s : Line) : Line × Line :=
  match s with
  | ':' :: r =>
    match pDig 2 2 r with
    | some sec => (':' :: sec.1, sec.2)
    | none => ([], ':' :: r)
  | _ => ([], s)

/-- `\]?`: consume an optional closing bracket. -/
def optClose (s : Line) : Line :=
  match s with
  | ']' :: r => r
  | _ => s

/-- The suffix `\s+(.+)$` after the sender's colon: `\s+` is greedy and
gives back at most its last character when `(.+)$` would otherwise be
empty; `.` matches neither position of a newline. -/
def wsRest (s : Line) : Option Line :=
  if s.takeWhile isWs = [] then none
  else
    match s.dropWhile isWs with
    | [] =>
      match (s.takeWhile isWs).reverse with
      | [] => none
      | [_] => none
      | lastc :: _ :: _ => if lastc = '\n' then none else some [lastc]
    | c :: r =>
      if (c :: r).any (fun x => x == '\n') then none else some (c :: r)

/-- The lazy group `(.+?):` followed by `\s+(.+)$`: scan left to right,
terminating at the first colon (with a nonempty sender so far) whose
suffix completes the match; a colon that cannot terminate becomes part of
the sender, and a newline can never be part of it. -/
def senderScan : Line → Line → Option (Line × Line)
  | [], _ => none
  | c :: r, acc =>
    if c = '\n' then none
    else
      if c = ':' ∧ acc ≠ [] then
        match wsRest r with
        | some ct => some (acc.reverse, ct)
        | none => senderScan r (c :: acc)
      else senderScan r (c :: acc)

/-- `\s+(.+?):\s+(.+)$`: the leading `\s+` is greedy, then gives back one
whitespace character at a time (a given-back character joins the sender). -/
def pTailGo (w r : Line) : Nat → Option (Line × Line)
  | 0 => none
  | j + 1 =>
    match senderScan (w.drop (j + 1) ++ r) [] with
    | some x => some x
    | none => pTailGo w r j

def pTail (s : Line) : Option (Line × Line) :=
  if s.takeWhile isWs = [] then none
  else pTailGo (s.takeWhile isWs) (s.dropWhile isWs) (s.takeWhile isWs).length

/-- The whole `message_pattern`; returns the three capture groups
(timestamp text, sender, content), untrimmed. -/
def msgPattern (l : Line) : Option (Line × Line × Line) :=
  match pDig 1 2 (optOpen l) with
  | none => none
  | some d =>
  match pChar '/' d.2 with
  | none => none
  | some s1 =>
  match pDig 1 2 s1 with
  | none => none
  | some mo =>
  match pChar '/' mo.2 with
  | none => none
  | some s2 =>
  match pDig 2 4 s2 with
  | none => none
  | some y =>
  if (optComma y.2).2.takeWhile isWs = [] then none
  else
  match pDig 1 2 ((optComma y.2).2.dropWhile isWs) with
  | none => none
  | some h =>
  match pChar ':' h.2 with
  | none => none
  | some s4 =>
  match pDig 2 2 s4 with
  | none => none
  | some mi =>
  match pTail (optClose (optSec mi.2).2) with
  | none => none
  | some sdct =>
    some (d.1 ++ '/' :: mo.1 ++ '/' :: y.1 ++ (optComma y.2).1 ++
            (optComma y.2).2.takeWhile isWs ++ h.1 ++ ':' :: mi.1 ++
            (optSec mi.2).1,
          sdct.1, sdct.2)

/-! ## lib.rs: `sender_pattern` and `detect_senders` -/

def senderCapGo : Line → Line → Option Line
  | [], _ => none
  | c :: r, acc =>
    if c = ':' then some acc.reverse
    else if c = '\n' then none
    else senderCapGo r (c :: acc)

/-- `^(.+?):` — the shortest nonempty newline-free prefix followed by a
colon. -/
def senderCap (l : Line) : Option Line :=
  match l with
  | [] => none
  | c :: r => if c = '\n' then none else senderCapGo r [c]

/-- `detect_senders`: the deduplicated set of trimmed captures (the source
collects them as `HashMap` keys, whose iteration order is unspecified;
first-seen order is used as the set's representative here). -/
def detectSenders (ls : List Line) : List Line :=
  ls.foldl
    (fun acc l =>
      match senderCap l with
      | some t => if trimL t ∈ acc then acc else acc ++ [trimL t]
      | none => acc)
    []

/-! ## lib.rs: `parse_timestamp` (chrono format strings) -/

/-- A chrono numeric field: at least one and at most `mx` leading digits,
taken greedily (later digits are left for the following item). -/
def numC (mx : Nat) (s : Line) : Option (Nat × Line) :=
  let ds := (s.takeWhile Char.isDigit).take mx
  if ds = [] then none else some (dVal ds, s.drop ds.length)

/-- A chrono whitespace item: skips any amount of whitespace. -/
def pSpace (s : Line) : Line := s.dropWhile isWs

/-- chrono `%y`: two-digit years 00-68 mean 20xx, 69-99 mean 19xx. -/
def y2full (y2 : Nat) : Nat := if y2 ≤ 68 then 2000 + y2 else 1900 + y2

/-- Validity checks applied by `NaiveDate::from_ymd_opt` and
`NaiveTime::from_hms_opt` when chrono resolves the parsed fields. -/
def mkNDT (y mo d h mi s : Nat) : Option NDT :=
  if validYmd y mo d && validHms h mi s then some ⟨y, mo, d, h, mi, s⟩
  else none

/-- `"%d/%m/%y, %H:%M:%S"`, required to consume the whole input. -/
def fmt1 (s : Line) : Option NDT :=
  match numC 2 s with
  | none => none
  | some d =>
  match pChar '/' d.2 with
  | none => none
  | some s1 =>
  match numC 2 s1 with
  | none => none
  | some mo =>
  match pChar '/' mo.2 with
  | none => none
  | some s2 =>
  match numC 2 s2 with
  | none => none
  | some y =>
  match pChar ',' y.2 with
  | none => none
  | some s3 =>
  match numC 2 (pSpace s3) with
  | none => none
  | some h =>
  match pChar ':' h.2 with
  | none => none
  | some s4 =>
  match numC 2 s4 with
  | none => none
  | some mi =>
  match pChar ':' mi.2 with
  | none => none
  | some s5 =>
  match numC 2 s5 with
  | none => none
  | some sec =>
  if sec.2 = [] then mkNDT (y2full y.1) mo.1 d.1 h.1 mi.1 sec.1 else none

/-- `"%m/%d/%y, %H:%M:%S"`. -/
def fmt2 (s : Line) : Option NDT :=
  match numC 2 s with
  | none => none
  | some mo =>
  match pChar '/' mo.2 with
  | none => none
  | some s1 =>
  match numC 2 s1 with
  | none => none
  | some d =>
  match pChar '/' d.2 with
  | none => none
  | some s2 =>
  match numC 2 s2 with
  | none => none
  | some y =>
  match pChar ',' y.2 with
  | none => none
  | some s3 =>
  match numC 2 (pSpace s3) with
  | none => none
  | some h =>
  match pChar ':' h.2 with
  | none => none
  | some s4 =>
  match numC 2 s4 with
  | none => none
  | some mi =>
  match pChar ':' mi.2 with
  | none => none
  | some s5 =>
  match numC 2 s5 with
  | none => none
  | some sec =>
  if sec.2 = [] then mkNDT (y2full y.1) mo.1 d.1 h.1 mi.1 sec.1 else none

/-- `"%Y-%m-%d %H:%M:%S"`. -/
def fmt3 (s : Line) : Option NDT :=
  match numC 4 s with
  | none => none
  | some y =>
  match pChar '-' y.2 with
  | none => none
  | some s1 =>
  match numC 2 s1 with
  | none => none
  | some mo =>
  match pChar '-' mo.2 with
  | none => none
  | some s2 =>
  match numC 2 s2 with
  | none => none
  | some d =>
  match numC 2 (pSpace d.2) with
  | none => none
  | some h =>
  match pChar ':' h.2 with
  | none => none
  | some s4 =>
  match numC 2 s4 with
  | none => none
  | some mi =>
  match pChar ':' mi.2 with
  | none => none
  | some s5 =>
  match numC 2 s5 with
  | none => none
  | some sec =>
  if sec.2 = [] then mkNDT y.1 mo.1 d.1 h.1 mi.1 sec.1 else none

/-- `parse_timestamp` tries the three `date_formats` in order. -/
def tryFormats (ts : Line) : Option NDT :=
  match fmt1 ts with
  | some dt => some dt
  | none =>
    match fmt2 ts with
    | some dt => some dt
    | none => fmt3 ts

/-! ## lib.rs: `detect_message_type` and `parse_chat` -/

def voiceMark : Line := s2l "Voice note"

def cardMark : Line := s2l "Contact card"

inductive CType where
  | text
  | media
  | card
  | voiceNote
deriving DecidableEq, Repr

def detectMessageType (c : Line) : CType :=
  if infixIn mediaMark c then .media
  else if infixIn voiceMark c then .voiceNote
  else if infixIn cardMark c then .card
  else .text

/-- A `ChatParser` message.  `DateTime<Local>` is built by
`from_naive_utc_and_offset(dt, Local::now().offset())`: `ts` is the parsed
naive datetime (interpreted as UTC) and `offset` the local offset queried
from the clock at that moment.  `sentiment_score` is always `None` and is
not modelled. -/
structure CMsg where
  ts : NDT
  offset : Int
  sender : Line
  content : Line
  mtype : CType
deriving DecidableEq, Repr

/-- `q` counts the `Local::now()` queries made so far (one per successfully
parsed timestamp); the ambient clock is modelled as the oracle
`offs : Nat → Int` giving the offset returned by the n-th query. -/
structure CSt where
  msgs : List CMsg
  q : Nat
deriving DecidableEq, Repr

def stepC (offs : Nat → Int) (st : CSt) (l : Line) : Except String CSt :=
  match msgPattern l with
  | none => .ok st
  | some (ts, sd, ct) =>
    match tryFormats ts with
    | some dt =>
      .ok ⟨st.msgs ++
             [⟨dt, offs st.q, trimL sd, trimL ct,
               detectMessageType (trimL ct)⟩],
           st.q + 1⟩
    | none => .error "Invalid timestamp format"

def runC (offs : Nat → Int) : CSt → List Line → Except String CSt
  | st, [] => .ok st
  | st, l :: ls =>
    match stepC offs st l with
    | .ok st1 => runC offs st1 ls
    | .error e => .error e

/-- `ChatParser::parse_chat` on decoded lines. -/
def parseChat (offs : Nat → Int) (ls : List Line) : Except String (List CMsg) :=
  match runC offs ⟨[], 0⟩ ls with
  | .ok st => .ok st.msgs
  | .error e => .error e

/-! ## Derived definitions used in the statements below -/

def pendN (st : PSt) : Nat :=
  match st.pending with
  | some _ => 1
  | none => 0

/-- A line that matches one of the four header grammars and whose content
capture is not a system/control message. -/
def nonSysHeader (l : Line) : Bool :=
  match headerCapture l with
  | some x => !(isSysContent x.2.2)
  | none => false

/-- The specified shape of an accumulated content: the header's trailing
text followed by each continuation line, joined by one `'\n'`. -/
def contentJoin (t : Line) (cs : List Line) : Line :=
  cs.foldl (fun a c => a ++ '\n' :: c) t

/-- Invariant of the segmenter state: `message_id` equals the number of
sealed messages, ids are `msg_1 ... msg_n` in order, and every sealed
message is classified from its own content and has the fixed UTC offset. -/
def GoodSt (st : PSt) : Prop :=
  st.mid = st.msgs.length ∧
  st.msgs.map WMsg.id = (List.range st.msgs.length).map (fun i => mkId (i + 1)) ∧
  ∀ m ∈ st.msgs, m.mtype = classifyW m.content ∧ m.tsOffset = 0

/-! ## Lemmas about the pattern matchers -/

theorem pStr_eq {lit s r : Line} (h : pStr lit s = some r) : s = lit ++ r := by
  induction lit generalizing s with
  | nil => simp [pStr] at h; simp [h]
  | cons c cs ih =>
    cases s with
    | nil => simp [pStr] at h
    | cons x xs =>
      by_cases hxc : x = c
      · subst hxc
        simp only [pStr, if_pos rfl] at h
        simp [ih h]
      · simp [pStr, hxc] at h

theorem mem_of_dropWhile_cons {p : Char → Bool} {l r : Line} {c : Char}
    (h : l.dropWhile p = c :: r) : c ∈ l := by
  induction l with
  | nil => simp [List.dropWhile] at h
  | cons x xs ih =>
    rw [List.dropWhile_cons] at h
    by_cases hp : p x = true
    · simp only [hp, if_true] at h
      exact List.mem_cons_of_mem _ (ih h)
    · simp only [Bool.not_eq_true] at hp
      simp only [hp] at h
      cases h
      exact List.mem_cons_self _ _

theorem pSender_colon {s : Line} {x : Line × Line} (h : pSender s = some x) :
    s.any (fun c => c == ':') = true := by
  unfold pSender at h
  split at h
  · next c1 c2 r heq =>
    split at h
    · next hc =>
      obtain ⟨h1, _, _⟩ := hc
      subst h1
      have : (':' : Char) ∈ s := mem_of_dropWhile_cons heq
      exact List.any_eq_true.2 ⟨':', this, by simp⟩
    · exact absurd h (by simp)
  · exact absurd h (by simp)

theorem pDig44_to24 {s : Line} {x : Line × Line} (h : pDig 4 4 s = some x) :
    pDig 2 4 s = some x := by
  unfold pDig at h ⊢
  split at h
  · next hc =>
    rw [if_pos ⟨le_trans (by norm_num) hc.1, hc.2⟩]
    exact h
  · exact absurd h (by simp)

theorem pDatePrefix4_to2 {l : Line} {x : Line × Line}
    (h : pDatePrefix 4 l = some x) : pDatePrefix 2 l = some x := by
  unfold pDatePrefix at h ⊢
  cases h1 : pDig 1 2 l with
  | none => simp [h1] at h
  | some d =>
  simp only [h1] at h ⊢
  cases h2 : pChar '/' d.2 with
  | none => simp [h2] at h
  | some s1 =>
  simp only [h2] at h ⊢
  cases h3 : pDig 1 2 s1 with
  | none => simp [h3] at h
  | some mo =>
  simp only [h3] at h ⊢
  cases h4 : pChar '/' mo.2 with
  | none => simp [h4] at h
  | some s2 =>
  simp only [h4] at h ⊢
  cases h5 : pDig 4 4 s2 with
  | none => simp [h5] at h
  | some y =>
  simp only [h5, pDig44_to24 h5] at h ⊢
  exact h

theorem pat1_bracket {l : Line} {x : Line × Line × Line}
    (h : pat1 l = some x) : ∃ r, l = '[' :: r := by
  unfold pat1 at h
  cases l with
  | nil => simp [pChar] at h
  | cons c r =>
    by_cases hc : c = '['
    · exact ⟨r, by rw [hc]⟩
    · simp [pChar, hc] at h

theorem systemLine_bracket (r : Line) : systemLine ('[' :: r) = false := by
  have hdig : Char.isDigit '[' = false := by decide
  unfold systemLine pDatePrefix pDig
  simp [List.takeWhile, hdig]

theorem pat2_not_system {l : Line} {x : Line × Line × Line}
    (h : pat2 l = some x) : systemLine l = false := by
  unfold pat2 at h
  cases h1 : pDatePrefix 2 l with
  | none => simp [h1] at h
  | some dt =>
  simp only [h1] at h
  cases h2 : pChar ' ' dt.2 with
  | none => simp [h2] at h
  | some s1 =>
  simp only [h2] at h
  cases h3 : pMer s1 with
  | none => simp [h3] at h
  | some mer =>
  simp only [h3] at h
  cases h4 : pStr (s2l " - ") mer.2 with
  | none => simp [h4] at h
  | some s2 =>
  simp only [h4] at h
  cases h5 : pSender s2 with
  | none => simp [h5] at h
  | some sd =>
  have hcol := pSender_colon h5
  unfold systemLine
  simp [h1, h2, h3, h4, hcol]

theorem pat3_not_system {l : Line} {x : Line × Line × Line}
    (h : pat3 l = some x) : systemLine l = false := by
  unfold pat3 at h
  cases h1 : pDatePrefix 4 l with
  | none => simp [h1] at h
  | some dt =>
  simp only [h1] at h
  cases h2 : pStr (s2l " - ") dt.2 with
  | none => simp [h2] at h
  | some s1 =>
  have hdt2 : dt.2 = ' ' :: '-' :: ' ' :: s1 := pStr_eq h2
  unfold systemLine
  simp only [pDatePrefix4_to2 h1]
  rw [hdt2]
  simp [pChar, pMer]

theorem pat4_not_system {l : Line} {x : Line × Line × Line}
    (h : pat4 l = some x) : systemLine l = false := by
  unfold pat4 at h
  cases h1 : pDatePrefix 2 l with
  | none => simp [h1] at h
  | some dt =>
  simp only [h1] at h
  cases h2 : pStr (s2l " - ") dt.2 with
  | none => simp [h2] at h
  | some s1 =>
  have hdt2 : dt.2 = ' ' :: '-' :: ' ' :: s1 := pStr_eq h2
  unfold systemLine
  simp only [h1]
  rw [hdt2]
  simp [pChar, pMer]

/-- A line matched by one of the four header grammars is never skipped by
the full-line system pattern: the two families are mutually exclusive. -/
theorem headerNotSystem {l : Line} {x : Line × Line × Line}
    (h : headerCapture l = some x) : systemLine l = false := by
  unfold headerCapture at h
  cases h1 : pat1 l with
  | some y =>
    obtain ⟨r, hr⟩ := pat1_bracket h1
    rw [hr]
    exact systemLine_bracket r
  | none =>
  simp only [h1] at h
  cases h2 : pat2 l with
  | some y => exact pat2_not_system h2
  | none =>
  simp only [h2] at h
  cases h3 : pat3 l with
  | some y => exact pat3_not_system h3
  | none =>
  simp only [h3] at h
  exact pat4_not_system h

/-! ## Lemmas about single steps of the segmenter -/

theorem stepLine_skip (st : PSt) {l : Line} (h : systemLine l = true) :
    stepLine st l = .ok st := by
  simp [stepLine, h]

theorem stepLine_header_sys (st : PSt) {l ts sd ct : Line}
    (hc : headerCapture l = some (ts, sd, ct)) (hs : isSysContent ct = true) :
    stepLine st l = .ok ⟨(sealP st).msgs, (sealP st).mid, none⟩ := by
  simp [stepLine, headerNotSystem hc, hc, hs]

theorem stepLine_header_new (st : PSt) {l ts sd ct : Line} {dt : NDT}
    (hc : headerCapture l = some (ts, sd, ct)) (hs : isSysContent ct = false)
    (ht : parseWTimestamp ts = .ok dt) :
    stepLine st l = .ok ⟨(sealP st).msgs, (sealP st).mid, some ⟨dt, sd, ct⟩⟩ := by
  simp [stepLine, headerNotSystem hc, hc, hs, ht]

theorem stepLine_header_bad (st : PSt) {l ts sd ct : Line} {e : String}
    (hc : headerCapture l = some (ts, sd, ct)) (hs : isSysContent ct = false)
    (ht : parseWTimestamp ts = .error e) :
    stepLine st l =
      .error (.invalidTimestamp ("Failed to parse timestamp: " ++ e)) := by
  simp [stepLine, headerNotSystem hc, hc, hs, ht]

theorem stepLine_cont_some (st : PSt) {l : Line} {p : Pend}
    (hns : systemLine l = false) (hc : headerCapture l = none)
    (hp : st.pending = some p) :
    stepLine st l =
      .ok ⟨st.msgs, st.mid, some ⟨p.ts, p.sender, p.content ++ '\n' :: l⟩⟩ := by
  simp [stepLine, hns, hc, hp]

theorem stepLine_cont_none (st : PSt) {l : Line}
    (hns : systemLine l = false) (hc : headerCapture l = none)
    (hp : st.pending = none) :
    stepLine st l = .ok st := by
  simp [stepLine, hns, hc, hp]

theorem sealP_msgs_len (st : PSt) :
    (sealP st).msgs.length = st.msgs.length + pendN st := by
  unfold sealP pendN
  cases h : st.pending with
  | none => simp
  | some p => simp

theorem sealP_prefix (st : PSt) : ∃ t, (sealP st).msgs = st.msgs ++ t := by
  unfold sealP
  cases h : st.pending with
  | none => exact ⟨[], by simp⟩
  | some p => exact ⟨_, rfl⟩

theorem sealP_good {st : PSt} (hg : GoodSt st) : GoodSt (sealP st) := by
  obtain ⟨h1, h2, h3⟩ := hg
  unfold sealP
  cases h : st.pending with
  | none => exact ⟨h1, h2, h3⟩
  | some p =>
    refine ⟨by simp [h1], ?_, ?_⟩
    · simp only [List.map_append, List.length_append, List.map_cons,
        List.map_nil, List.length_cons, List.length_nil]
      rw [h2, h1]
      rw [List.range_succ]
      simp
    · intro m hm
      rcases List.mem_append.1 hm with hm | hm
      · exact h3 m hm
      · simp at hm
        subst hm
        exact ⟨rfl, rfl⟩

theorem nonSysHeader_of_system {l : Line} (h : systemLine l = true) :
    nonSysHeader l = false := by
  unfold nonSysHeader
  cases hc : headerCapture l with
  | none => rfl
  | some x => rw [headerNotSystem hc] at h; cases h

theorem stepLine_good {st st' : PSt} {l : Line} (h : stepLine st l = .ok st')
    (hg : GoodSt st) :
    GoodSt st' ∧ (∃ t, st'.msgs = st.msgs ++ t) ∧
      st'.msgs.length + pendN st' =
        st.msgs.length + pendN st + (if nonSysHeader l then 1 else 0) := by
  cases hsys : systemLine l with
  | true =>
    rw [stepLine_skip st hsys] at h
    obtain rfl := Except.ok.inj h
    rw [nonSysHeader_of_system hsys]
    exact ⟨hg, ⟨[], by simp⟩, by simp⟩
  | false =>
    cases hc : headerCapture l with
    | some x =>
      obtain ⟨ts, sd, ct⟩ := x
      cases hs : isSysContent ct with
      | true =>
        rw [stepLine_header_sys st hc hs] at h
        obtain rfl := Except.ok.inj h
        have hns : nonSysHeader l = false := by
          unfold nonSysHeader; rw [hc]; simp [hs]
        have hgood := sealP_good hg
        refine ⟨⟨hgood.1, hgood.2.1, hgood.2.2⟩, sealP_prefix st, ?_⟩
        have hite : (if nonSysHeader l then 1 else 0) = 0 := by rw [hns]; rfl
        rw [hite]
        have hlen := sealP_msgs_len st
        simp only [pendN]
        simp only [pendN] at hlen
        omega
      | false =>
        cases ht : parseWTimestamp ts with
        | ok dt =>
          rw [stepLine_header_new st hc hs ht] at h
          obtain rfl := Except.ok.inj h
          have hns : nonSysHeader l = true := by
            unfold nonSysHeader; rw [hc]; simp [hs]
          have hgood := sealP_good hg
          refine ⟨⟨hgood.1, hgood.2.1, hgood.2.2⟩, sealP_prefix st, ?_⟩
          have hite : (if nonSysHeader l then 1 else 0) = 1 := by rw [hns]; rfl
          rw [hite]
          have hlen := sealP_msgs_len st
          simp only [pendN]
          simp only [pendN] at hlen
          omega
        | error e =>
          rw [stepLine_header_bad st hc hs ht] at h
          cases h
    | none =>
      have hns : nonSysHeader l = false := by unfold nonSysHeader; rw [hc]
      have hite : (if nonSysHeader l then 1 else 0) = 0 := by rw [hns]; rfl
      rw [hite]
      cases hp : st.pending with
      | some p =>
        rw [stepLine_cont_some st hsys hc hp] at h
        obtain rfl := Except.ok.inj h
        refine ⟨⟨hg.1, hg.2.1, hg.2.2⟩, ⟨[], by simp⟩, ?_⟩
        simp only [pendN, hp]
      | none =>
        rw [stepLine_cont_none st hsys hc hp] at h
        obtain rfl := Except.ok.inj h
        exact ⟨hg, ⟨[], by simp⟩, by simp⟩

theorem runW_cons (st : PSt) (l : Line) (ls : List Line) :
    runW st (l :: ls) =
      match stepLine st l with
      | .ok st1 => runW st1 ls
      | .error e => .error e := rfl

theorem runW_good : ∀ {ls : List Line} {st st' : PSt},
    runW st ls = .ok st' → GoodSt st →
    GoodSt st' ∧ (∃ t, st'.msgs = st.msgs ++ t) ∧
      st'.msgs.length + pendN st' =
        st.msgs.length + pendN st + (ls.filter nonSysHeader).length := by
  intro ls
  induction ls with
  | nil =>
    intro st st' h hg
    obtain rfl := Except.ok.inj h
    exact ⟨hg, ⟨[], by simp⟩, by simp⟩
  | cons l ls ih =>
    intro st st' h hg
    rw [runW_cons] at h
    cases hs : stepLine st l with
    | error e => rw [hs] at h; cases h
    | ok st1 =>
      rw [hs] at h
      obtain ⟨hg1, ⟨t1, ht1⟩, hc1⟩ := stepLine_good hs hg
      obtain ⟨hg2, ⟨t2, ht2⟩, hc2⟩ := ih h hg1
      refine ⟨hg2, ⟨t1 ++ t2, by rw [ht2, ht1, List.append_assoc]⟩, ?_⟩
      cases hnl : nonSysHeader l with
      | true =>
        have hite : (if nonSysHeader l then 1 else 0) = 1 := by rw [hnl]; rfl
        rw [hite] at hc1
        have hflt : List.filter nonSysHeader (l :: ls) =
            l :: List.filter nonSysHeader ls := by
          rw [List.filter_cons, hnl]; rfl
        rw [hflt, List.length_cons]
        omega
      | false =>
        have hite : (if nonSysHeader l then 1 else 0) = 0 := by rw [hnl]; rfl
        rw [hite] at hc1
        have hflt : List.filter nonSysHeader (l :: ls) =
            List.filter nonSysHeader ls := by
          rw [List.filter_cons, hnl]; rfl
        rw [hflt]
        omega

theorem runW_append : ∀ (xs ys : List Line) (st : PSt),
    runW st (xs ++ ys) =
      match runW st xs with
      | .ok st1 => runW st1 ys
      | .error e => .error e := by
  intro xs
  induction xs with
  | nil => intro ys st; rfl
  | cons l xs ih =>
    intro ys st
    rw [List.cons_append, runW_cons, runW_cons]
    cases hs : stepLine st l with
    | error e => rfl
    | ok st1 => exact ih ys st1

theorem runW_cont : ∀ {cs : List Line} {st : PSt} {p : Pend},
    (∀ c ∈ cs, headerCapture c = none) → st.pending = some p →
    runW st cs =
      .ok ⟨st.msgs, st.mid,
        some ⟨p.ts, p.sender,
          contentJoin p.content (cs.filter fun x => !systemLine x)⟩⟩ := by
  intro cs
  induction cs with
  | nil =>
    intro st p hcs hp
    obtain ⟨msgs, mid, pending⟩ := st
    obtain ⟨pts, psd, pct⟩ := p
    simp only at hp
    subst hp
    rfl
  | cons c cs ih =>
    intro st p hcs hp
    have hcc : headerCapture c = none := hcs c (List.mem_cons_self c cs)
    have hcs2 : ∀ x ∈ cs, headerCapture x = none := fun x hx =>
      hcs x (List.mem_cons_of_mem c hx)
    cases hsc : systemLine c with
    | true =>
      have hflt : List.filter (fun x => !systemLine x) (c :: cs) =
          List.filter (fun x => !systemLine x) cs := by
        rw [List.filter_cons]
        simp [hsc]
      rw [runW_cons, stepLine_skip st hsc]
      show runW st cs = _
      rw [ih hcs2 hp, hflt]
    | false =>
      have hflt : List.filter (fun x => !systemLine x) (c :: cs) =
          c :: List.filter (fun x => !systemLine x) cs := by
        rw [List.filter_cons]
        simp [hsc]
      rw [runW_cons, stepLine_cont_some st hsc hcc hp]
      show runW (⟨st.msgs, st.mid,
        some ⟨p.ts, p.sender, p.content ++ '\n' :: c⟩⟩ : PSt) cs = _
      rw [ih hcs2 (p := ⟨p.ts, p.sender, p.content ++ '\n' :: c⟩) rfl, hflt]
      rfl

theorem stepLine_header_msgs {st st' : PSt} {l : Line} {x : Line × Line × Line}
    (hc : headerCapture l = some x) (h : stepLine st l = .ok st') :
    st'.msgs = (sealP st).msgs ∧ st'.mid = (sealP st).mid := by
  obtain ⟨ts, sd, ct⟩ := x
  cases hs : isSysContent ct with
  | true =>
    rw [stepLine_header_sys st hc hs] at h
    obtain rfl := Except.ok.inj h
    exact ⟨rfl, rfl⟩
  | false =>
    cases ht : parseWTimestamp ts with
    | ok dt =>
      rw [stepLine_header_new st hc hs ht] at h
      obtain rfl := Except.ok.inj h
      exact ⟨rfl, rfl⟩
    | error e =>
      rw [stepLine_header_bad st hc hs ht] at h
      cases h

theorem goodInit : GoodSt initSt := ⟨rfl, rfl, by intro m hm; cases hm⟩

theorem parseW_block {pre : List Line} {hl : Line} {cs rest : List Line}
    {ts sd ct : Line} {dt : NDT} {msgs : List WMsg}
    (hh : headerCapture hl = some (ts, sd, ct))
    (hns : isSysContent ct = false)
    (hts : parseWTimestamp ts = .ok dt)
    (hcs : ∀ c ∈ cs, headerCapture c = none)
    (hrest : rest = [] ∨ ∃ r rs y, rest = r :: rs ∧ headerCapture r = some y)
    (hp : parseW (pre ++ hl :: (cs ++ rest)) = .ok msgs) :
    ∃ n, msgs.get? n = some
      ⟨mkId (n + 1), dt, 0, sd,
        contentJoin ct (cs.filter fun x => !systemLine x),
        classifyW (contentJoin ct (cs.filter fun x => !systemLine x))⟩ := by
  unfold parseW at hp
  cases hr : runW initSt (pre ++ hl :: (cs ++ rest)) with
  | error e => rw [hr] at hp; cases hp
  | ok stF =>
  rw [hr] at hp
  have hmsgs : msgs = (sealP stF).msgs := (Except.ok.inj hp).symm
  rw [runW_append pre (hl :: (cs ++ rest)) initSt] at hr
  cases h0 : runW initSt pre with
  | error e => rw [h0] at hr; cases hr
  | ok st0 =>
  rw [h0] at hr
  have hg0 : GoodSt st0 := (runW_good h0 goodInit).1
  have hg1 : GoodSt (sealP st0) := sealP_good hg0
  have hrA : runW st0 (hl :: (cs ++ rest)) = .ok stF := hr
  rw [runW_cons, stepLine_header_new st0 hh hns hts] at hrA
  have hr2 : runW (⟨(sealP st0).msgs, (sealP st0).mid,
      some ⟨dt, sd, ct⟩⟩ : PSt) (cs ++ rest) = .ok stF := hrA
  rw [runW_append cs rest] at hr2
  rw [runW_cont hcs (p := ⟨dt, sd, ct⟩) rfl] at hr2
  have hr3 : runW (⟨(sealP st0).msgs, (sealP st0).mid,
      some ⟨dt, sd, contentJoin ct (cs.filter fun x => !systemLine x)⟩⟩ : PSt)
      rest = .ok stF := hr2
  refine ⟨(sealP st0).msgs.length, ?_⟩
  rcases hrest with hre | ⟨r, rs, y, hre, hcr⟩
  · subst hre
    have hstF := Except.ok.inj hr3
    rw [hmsgs, ← hstF]
    have hmid : (sealP st0).mid = (sealP st0).msgs.length := hg1.1
    have hseal : (sealP (⟨(sealP st0).msgs, (sealP st0).mid,
        some ⟨dt, sd, contentJoin ct (cs.filter fun x => !systemLine x)⟩⟩ : PSt)).msgs =
        (sealP st0).msgs ++
          [⟨mkId ((sealP st0).mid + 1), dt, 0, sd,
            contentJoin ct (cs.filter fun x => !systemLine x),
            classifyW (contentJoin ct (cs.filter fun x => !systemLine x))⟩] := rfl
    rw [hseal, hmid]
    exact List.get?_concat_length _ _
  · subst hre
    rw [runW_cons] at hr3
    cases hsr : stepLine (⟨(sealP st0).msgs, (sealP st0).mid,
        some ⟨dt, sd, contentJoin ct (cs.filter fun x => !systemLine x)⟩⟩ : PSt)
        r with
    | error e => rw [hsr] at hr3; cases hr3
    | ok st3 =>
    rw [hsr] at hr3
    obtain ⟨h3m, h3i⟩ := stepLine_header_msgs hcr hsr
    have hg2 : GoodSt (⟨(sealP st0).msgs, (sealP st0).mid,
        some ⟨dt, sd, contentJoin ct (cs.filter fun x => !systemLine x)⟩⟩ : PSt) :=
      ⟨hg1.1, hg1.2.1, hg1.2.2⟩
    have hg3 : GoodSt st3 := (stepLine_good hsr hg2).1
    obtain ⟨hgF, ⟨t1, ht1⟩, _⟩ := runW_good hr3 hg3
    obtain ⟨t2, ht2⟩ := sealP_prefix stF
    have hmid : (sealP st0).mid = (sealP st0).msgs.length := hg1.1
    rw [hmsgs, ht2, ht1, h3m]
    have hseal : (sealP (⟨(sealP st0).msgs, (sealP st0).mid,
        some ⟨dt, sd, contentJoin ct (cs.filter fun x => !systemLine x)⟩⟩ : PSt)).msgs =
        (sealP st0).msgs ++
          [⟨mkId ((sealP st0).mid + 1), dt, 0, sd,
            contentJoin ct (cs.filter fun x => !systemLine x),
            classifyW (contentJoin ct (cs.filter fun x => !systemLine x))⟩] := rfl
    rw [hseal, hmid]
    rw [List.append_assoc, List.append_assoc]
    rw [List.get?_append_right (le_refl _)]
    simp

/-! ## Lemmas about `ChatParser` -/

theorem stepC_none {offs : Nat → Int} {st : CSt} {l : Line}
    (hm : msgPattern l = none) : stepC offs st l = .ok st := by
  simp [stepC, hm]

theorem stepC_some {offs : Nat → Int} {st : CSt} {l ts sd ct : Line} {dtv : NDT}
    (hm : msgPattern l = some (ts, sd, ct)) (htf : tryFormats ts = some dtv) :
    stepC offs st l = .ok ⟨st.msgs ++
      [⟨dtv, offs st.q, trimL sd, trimL ct, detectMessageType (trimL ct)⟩],
      st.q + 1⟩ := by
  simp [stepC, hm, htf]

theorem stepC_bad {offs : Nat → Int} {st : CSt} {l ts sd ct : Line}
    (hm : msgPattern l = some (ts, sd, ct)) (htf : tryFormats ts = none) :
    stepC offs st l = .error "Invalid timestamp format" := by
  simp [stepC, hm, htf]

theorem runC_cons (offs : Nat → Int) (st : CSt) (l : Line) (ls : List Line) :
    runC offs st (l :: ls) =
      match stepC offs st l with
      | .ok st1 => runC offs st1 ls
      | .error e => .error e := rfl

theorem runC_main : ∀ {ls : List Line} {offs : Nat → Int} {st st' : CSt},
    runC offs st ls = .ok st' →
    st'.msgs.map CMsg.content =
      st.msgs.map CMsg.content ++
        (ls.filterMap msgPattern).map (fun x => trimL x.2.2) ∧
    (∀ m ∈ st'.msgs, m ∈ st.msgs ∨ ∃ l ∈ ls, ∃ x, msgPattern l = some x ∧
        m.sender = trimL x.2.1 ∧ m.content = trimL x.2.2 ∧
        m.mtype = detectMessageType m.content) ∧
    (∀ c : Int, (∀ n, offs n = c) → ∀ m ∈ st'.msgs,
        m ∈ st.msgs ∨ m.offset = c) := by
  intro ls
  induction ls with
  | nil =>
    intro offs st st' h
    obtain rfl := Except.ok.inj h
    exact ⟨by simp, fun m hm => Or.inl hm, fun c hc m hm => Or.inl hm⟩
  | cons l ls ih =>
    intro offs st st' h
    rw [runC_cons] at h
    cases hm : msgPattern l with
    | none =>
      rw [stepC_none hm] at h
      obtain ⟨ihc, ihm, iho⟩ := ih h
      refine ⟨by rw [ihc, List.filterMap_cons_none hm], ?_, ?_⟩
      · intro m hmem
        rcases ihm m hmem with hin | ⟨l2, hl2, x, hx, hrest⟩
        · exact Or.inl hin
        · exact Or.inr ⟨l2, List.mem_cons_of_mem l hl2, x, hx, hrest⟩
      · intro c hc m hmem
        exact iho c hc m hmem
    | some x =>
      obtain ⟨ts, sd, ct⟩ := x
      cases htf : tryFormats ts with
      | none => rw [stepC_bad hm htf] at h; cases h
      | some dtv =>
        rw [stepC_some hm htf] at h
        obtain ⟨ihc, ihm, iho⟩ := ih h
        refine ⟨?_, ?_, ?_⟩
        · rw [ihc, List.filterMap_cons_some hm]
          simp
        · intro m hmem
          rcases ihm m hmem with hin | ⟨l2, hl2, x2, hx2, hrest⟩
          · rcases List.mem_append.1 hin with hin2 | hin2
            · exact Or.inl hin2
            · simp only [List.mem_singleton] at hin2
              subst hin2
              exact Or.inr ⟨l, List.mem_cons_self l ls, (ts, sd, ct), hm,
                rfl, rfl, rfl⟩
          · exact Or.inr ⟨l2, List.mem_cons_of_mem l hl2, x2, hx2, hrest⟩
        · intro c hc m hmem
          rcases iho c hc m hmem with hin | hoff
          · rcases List.mem_append.1 hin with hin2 | hin2
            · exact Or.inl hin2
            · simp only [List.mem_singleton] at hin2
              subst hin2
              exact Or.inr (hc st.q)
          · exact Or.inr hoff

theorem length_filterMap_isSome {α β : Type} (f : α → Option β) :
    ∀ ls : List α,
      (ls.filterMap f).length = (ls.filter fun a => (f a).isSome).length := by
  intro ls
  induction ls with
  | nil => rfl
  | cons a ls ih =>
    cases hf : f a with
    | none =>
      rw [List.filterMap_cons_none hf, List.filter_cons]
      have : ((f a).isSome : Bool) = false := by rw [hf]; rfl
      rw [this]
      simpa using ih
    | some b =>
      rw [List.filterMap_cons_some hf, List.filter_cons]
      have : ((f a).isSome : Bool) = true := by rw [hf]; rfl
      rw [this]
      simpa using ih

theorem mem_of_mem_takeWhile {p : Char → Bool} {l : Line} {a : Char}
    (h : a ∈ l.takeWhile p) : a ∈ l := by
  induction l with
  | nil => simp [List.takeWhile] at h
  | cons x xs ih =>
    rw [List.takeWhile_cons] at h
    by_cases hp : p x = true
    · simp only [hp, if_true] at h
      rcases List.mem_cons.1 h with h | h
      · exact h ▸ List.mem_cons_self _ _
      · exact List.mem_cons_of_mem _ (ih h)
    · simp only [Bool.not_eq_true] at hp
      simp only [hp] at h
      cases h

theorem mem_of_mem_dropWhile {p : Char → Bool} {l : Line} {a : Char}
    (h : a ∈ l.dropWhile p) : a ∈ l := by
  induction l with
  | nil => simp [List.dropWhile] at h
  | cons x xs ih =>
    rw [List.dropWhile_cons] at h
    by_cases hp : p x = true
    · simp only [hp, if_true] at h
      exact List.mem_cons_of_mem _ (ih h)
    · simp only [Bool.not_eq_true] at hp
      simp only [hp] at h
      exact h

theorem mem_trimL {s : Line} {a : Char} (h : a ∈ trimL s) : a ∈ s := by
  unfold trimL at h
  rw [List.mem_reverse] at h
  have h2 := mem_of_mem_dropWhile h
  rw [List.mem_reverse] at h2
  exact mem_of_mem_dropWhile h2

theorem wsRest_noNl {s : Line} {ct : Line} (h : wsRest s = some ct) :
    '\n' ∉ ct := by
  unfold wsRest at h
  split at h
  · cases h
  · split at h
    · split at h
      · cases h
      · cases h
      · next lastc tl htl =>
        split at h
        · cases h
        · next hnl =>
          obtain rfl := Option.some.inj h
          intro hmem
          rcases List.mem_singleton.1 hmem with rfl
          exact hnl rfl
    · next ch ctl heq =>
      split at h
      · cases h
      · next hany =>
        obtain rfl := Option.some.inj h
        intro hmem
        rw [Bool.not_eq_true] at hany
        have hxx : List.any (ch :: ctl) (fun x => x == '\n') = true :=
          List.any_eq_true.2 ⟨'\n', hmem, by decide⟩
        rw [hany] at hxx
        cases hxx

theorem senderScan_noNl : ∀ {s acc : Line} {x : Line × Line},
    senderScan s acc = some x → '\n' ∉ x.2 := by
  intro s
  induction s with
  | nil => intro acc x h; cases h
  | cons c r ih =>
    intro acc x h
    unfold senderScan at h
    split at h
    · cases h
    · split at h
      · split at h
        · next ct hws =>
          obtain rfl := Option.some.inj h
          exact wsRest_noNl hws
        · exact ih h
      · exact ih h

theorem pTailGo_noNl : ∀ {j : Nat} {w r : Line} {x : Line × Line},
    pTailGo w r j = some x → '\n' ∉ x.2 := by
  intro j
  induction j with
  | zero => intro w r x h; cases h
  | succ j ih =>
    intro w r x h
    unfold pTailGo at h
    split at h
    · next hscan =>
      obtain rfl := Option.some.inj h
      exact senderScan_noNl hscan
    · exact ih h

theorem pTail_noNl {s : Line} {x : Line × Line} (h : pTail s = some x) :
    '\n' ∉ x.2 := by
  unfold pTail at h
  split at h
  · cases h
  · exact pTailGo_noNl h

theorem msgPattern_noNl {l : Line} {x : Line × Line × Line}
    (h : msgPattern l = some x) : '\n' ∉ x.2.2 := by
  unfold msgPattern at h
  cases h1 : pDig 1 2 (optOpen l) with
  | none => simp [h1] at h
  | some d =>
  simp only [h1] at h
  cases h2 : pChar '/' d.2 with
  | none => simp [h2] at h
  | some s1 =>
  simp only [h2] at h
  cases h3 : pDig 1 2 s1 with
  | none => simp [h3] at h
  | some mo =>
  simp only [h3] at h
  cases h4 : pChar '/' mo.2 with
  | none => simp [h4] at h
  | some s2 =>
  simp only [h4] at h
  cases h5 : pDig 2 4 s2 with
  | none => simp [h5] at h
  | some y =>
  simp only [h5] at h
  split at h
  · cases h
  · cases h6 : pDig 1 2 ((optComma y.2).2.dropWhile isWs) with
    | none => simp [h6] at h
    | some hh =>
    simp only [h6] at h
    cases h7 : pChar ':' hh.2 with
    | none => simp [h7] at h
    | some s4 =>
    simp only [h7] at h
    cases h8 : pDig 2 2 s4 with
    | none => simp [h8] at h
    | some mi =>
    simp only [h8] at h
    cases h9 : pTail (optClose (optSec mi.2).2) with
    | none => simp [h9] at h
    | some sdct =>
    simp only [h9] at h
    obtain rfl := Option.some.inj h
    exact pTail_noNl h9

theorem runR_cons (st : PSt) (l : Except String Line)
    (ls : List (Except String Line)) :
    runR st (l :: ls) =
      match stepR st l with
      | .ok st1 => runR st1 ls
      | .error e => .error e := rfl

theorem runR_append : ∀ (xs ys : List (Except String Line)) (st : PSt),
    runR st (xs ++ ys) =
      match runR st xs with
      | .ok st1 => runR st1 ys
      | .error e => .error e := by
  intro xs
  induction xs with
  | nil => intro ys st; rfl
  | cons l xs ih =>
    intro ys st
    rw [List.cons_append, runR_cons, runR_cons]
    cases hs : stepR st l with
    | error e => rfl
    | ok st1 => exact ih ys st1

/-! ## The claims -/

/-- C1: the claim says a header whose timestamp text matches a grammar's
shape but carries an out-of-range calendar component (day 99, month 99)
makes the parse call fail with `InvalidTimestamp`.  In
`parse_whatsapp_chat` this is false: `unwrap_or_default()` substitutes the
default date 1970-01-01 and the call succeeds, emitting a message with the
substituted date.  (`ChatParser::parse_chat`, whose chrono formats validate
components, does fail on the same line.) -/
theorem c1_out_of_range_substitutes_default :
    parseW [s2l "[99/99/2023, 10:00:00] Alice: bad date"] =
      .ok [⟨"msg_1", ⟨1970, 1, 1, 10, 0, 0⟩, 0, s2l "Alice",
        s2l "bad date", "text"⟩] ∧
    parseWTimestamp (s2l "99/99/2023, 10:00:00") =
      .ok ⟨1970, 1, 1, 10, 0, 0⟩ ∧
    validYmd 2023 99 99 = false ∧
    parseChat (fun _ => 0) [s2l "[99/99/2023, 10:00:00] Alice: bad date"] =
      .error "Invalid timestamp format" :=
  ⟨rfl, rfl, rfl, rfl⟩

/-- C2: the claim says `detect_senders` on Scenario A returns
`{"Alice", "Bob"}`.  In fact the lazy `^(.+?):` stops at the first colon of
the line, which lies inside the timestamp, so the returned set is the
single string `"[01/02/2023, 14"`; neither "Alice" nor "Bob" is found. -/
theorem c2_detect_senders_captures_timestamp :
    detectSenders [s2l "[01/02/2023, 14:30:05] Alice: Hello there",
        s2l "how are you?",
        s2l "[01/02/2023, 14:31:00] Bob: <Media omitted>"] =
      [s2l "[01/02/2023, 14"] ∧
    s2l "Alice" ∉ detectSenders [s2l "[01/02/2023, 14:30:05] Alice: Hello there",
        s2l "how are you?",
        s2l "[01/02/2023, 14:31:00] Bob: <Media omitted>"] ∧
    s2l "Bob" ∉ detectSenders [s2l "[01/02/2023, 14:30:05] Alice: Hello there",
        s2l "how are you?",
        s2l "[01/02/2023, 14:31:00] Bob: <Media omitted>"] :=
  ⟨rfl, by decide, by decide⟩

/-- C3: on every input on which `parse_whatsapp_chat` succeeds, the emitted
ids are `msg_1, msg_2, ...` in order (strictly increasing, gap-free,
1-based), and the number of messages equals the number of header-matching
lines whose captured content is not a system/control message. -/
theorem c3_ids_sequential : ∀ (lines : List Line) (msgs : List WMsg),
    parseW lines = .ok msgs →
    msgs.map WMsg.id = (List.range msgs.length).map (fun i => mkId (i + 1)) ∧
    msgs.length = (lines.filter nonSysHeader).length := by
  intro lines msgs h
  unfold parseW at h
  cases hr : runW initSt lines with
  | error e => rw [hr] at h; cases h
  | ok st =>
  rw [hr] at h
  obtain rfl := (Except.ok.inj h).symm
  obtain ⟨hg, _, hcount⟩ := runW_good hr goodInit
  have hgs := sealP_good hg
  refine ⟨hgs.2.1, ?_⟩
  have hlen := sealP_msgs_len st
  simp only [initSt, pendN, List.length_nil] at hcount hlen ⊢
  omega

theorem c3_witness :
    ([⟨"msg_1", ⟨2023, 2, 1, 14, 30, 5⟩, 0, s2l "Alice",
        s2l "Hello there\nhow are you?", "text"⟩] : List WMsg).map WMsg.id =
      (List.range
        ([⟨"msg_1", ⟨2023, 2, 1, 14, 30, 5⟩, 0, s2l "Alice",
          s2l "Hello there\nhow are you?", "text"⟩] : List WMsg).length).map
        (fun i => mkId (i + 1)) ∧
    ([⟨"msg_1", ⟨2023, 2, 1, 14, 30, 5⟩, 0, s2l "Alice",
        s2l "Hello there\nhow are you?", "text"⟩] : List WMsg).length =
      (([s2l "[01/02/2023, 14:30:05] Alice: Hello there",
         s2l "how are you?",
         s2l "[01/02/2023, 14:31:00] Bob: <Media omitted>"]).filter
        nonSysHeader).length :=
  c3_ids_sequential
    [s2l "[01/02/2023, 14:30:05] Alice: Hello there",
     s2l "how are you?",
     s2l "[01/02/2023, 14:31:00] Bob: <Media omitted>"]
    [⟨"msg_1", ⟨2023, 2, 1, 14, 30, 5⟩, 0, s2l "Alice",
      s2l "Hello there\nhow are you?", "text"⟩]
    (by rfl)

/-- C4 counterexample: the second input line matches no header grammar (it
is a non-header line), yet it is not appended to the first message's
content: the full-line system pattern skips it, so the emitted content is
`"hi"` and not `"hi\n01/02/2023, 9:00 AM - x"` as the claim requires. -/
theorem c4_counterexample :
    parseW [s2l "[01/02/2023, 14:30:05] Alice: hi",
        s2l "01/02/2023, 9:00 AM - x"] =
      .ok [⟨"msg_1", ⟨2023, 2, 1, 14, 30, 5⟩, 0, s2l "Alice",
        s2l "hi", "text"⟩] ∧
    headerCapture (s2l "01/02/2023, 9:00 AM - x") = none ∧
    systemLine (s2l "01/02/2023, 9:00 AM - x") = true ∧
    s2l "hi" ≠ s2l "hi" ++ '\n' :: s2l "01/02/2023, 9:00 AM - x" :=
  ⟨rfl, rfl, rfl, by decide⟩

/-- C4 (amended): for every emitted message, its content equals the header
line's trailing text followed by each subsequent non-header line that does
not match the full-line system pattern (up to the next header line or end
of stream), in original input order, joined by exactly one `'\n'`, each
appended verbatim; lines matching the full-line system pattern are skipped
entirely rather than appended. -/
theorem c4_amended_content : ∀ (pre : List Line) (hl : Line)
    (cs rest : List Line) (ts sd ct : Line) (dt : NDT) (msgs : List WMsg),
    headerCapture hl = some (ts, sd, ct) →
    isSysContent ct = false →
    parseWTimestamp ts = .ok dt →
    (∀ c ∈ cs, headerCapture c = none) →
    (rest = [] ∨ ∃ r rs y, rest = r :: rs ∧ headerCapture r = some y) →
    parseW (pre ++ hl :: (cs ++ rest)) = .ok msgs →
    ∃ n, msgs.get? n = some
      ⟨mkId (n + 1), dt, 0, sd,
        contentJoin ct (cs.filter fun x => !systemLine x),
        classifyW (contentJoin ct (cs.filter fun x => !systemLine x))⟩ :=
  fun _ _ _ _ _ _ _ _ _ hh hns hts hcs hrest hp =>
    parseW_block hh hns hts hcs hrest hp

theorem c4_witness :
    ∃ n, ([⟨"msg_1", ⟨2023, 2, 1, 14, 30, 5⟩, 0, s2l "Alice",
        s2l "Hello there\nhow are you?", "text"⟩] : List WMsg).get? n = some
      ⟨mkId (n + 1), ⟨2023, 2, 1, 14, 30, 5⟩, 0, s2l "Alice",
        contentJoin (s2l "Hello there")
          (([s2l "how are you?", s2l "01/02/2023, 9:00 AM - x"]).filter
            fun x => !systemLine x),
        classifyW (contentJoin (s2l "Hello there")
          (([s2l "how are you?", s2l "01/02/2023, 9:00 AM - x"]).filter
            fun x => !systemLine x))⟩ :=
  c4_amended_content [] (s2l "[01/02/2023, 14:30:05] Alice: Hello there")
    [s2l "how are you?", s2l "01/02/2023, 9:00 AM - x"] []
    (s2l "01/02/2023, 14:30:05") (s2l "Alice") (s2l "Hello there")
    ⟨2023, 2, 1, 14, 30, 5⟩
    [⟨"msg_1", ⟨2023, 2, 1, 14, 30, 5⟩, 0, s2l "Alice",
      s2l "Hello there\nhow are you?", "text"⟩]
    (by rfl) (by rfl) (by rfl) (by decide) (Or.inl rfl) (by rfl)

/-- C5 counterexample: content containing the voice-note marker (and no
media marker or URL) is emitted with type "text" by `parse_whatsapp_chat`,
not `VoiceNote` as the claimed priority chain requires: the chain in
`parse_whatsapp_chat` has no voice-note or contact-card checks at all. -/
theorem c5_counterexample :
    parseW [s2l "[01/02/2023, 14:30:05] Alice: Voice note from mom"] =
      .ok [⟨"msg_1", ⟨2023, 2, 1, 14, 30, 5⟩, 0, s2l "Alice",
        s2l "Voice note from mom", "text"⟩] ∧
    infixIn voiceMark (s2l "Voice note from mom") = true ∧
    infixIn mediaMark (s2l "Voice note from mom") = false ∧
    ((s2l "https://").isPrefixOf (s2l "Voice note from mom") ||
      (s2l "http://").isPrefixOf (s2l "Voice note from mom")) = false :=
  ⟨rfl, by decide, by decide, by decide⟩

/-- C5 (amended): classification happens once, at sealing time, over the
fully assembled content; in `parse_whatsapp_chat` the priority is
media-omitted marker anywhere → "media", else `http(s)://` prefix →
"link", else "text" (first match wins, so media plus URL is "media");
there is no voice-note or contact-card check.  Those two checks exist only
in `ChatParser::detect_message_type`, whose priority is media →
voice-note → contact-card → text, with no link check at all. -/
theorem c5_amended_classification :
    (∀ (lines : List Line) (msgs : List WMsg), parseW lines = .ok msgs →
      ∀ m ∈ msgs,
        m.mtype = classifyW m.content ∧
        (infixIn mediaMark m.content = true → m.mtype = "media") ∧
        (infixIn mediaMark m.content = false →
          ((s2l "https://").isPrefixOf m.content ||
            (s2l "http://").isPrefixOf m.content) = true →
          m.mtype = "link") ∧
        (infixIn mediaMark m.content = false →
          ((s2l "https://").isPrefixOf m.content ||
            (s2l "http://").isPrefixOf m.content) = false →
          m.mtype = "text")) ∧
    (∀ c : Line,
      (infixIn mediaMark c = true → detectMessageType c = .media) ∧
      (infixIn mediaMark c = false → infixIn voiceMark c = true →
        detectMessageType c = .voiceNote) ∧
      (infixIn mediaMark c = false → infixIn voiceMark c = false →
        infixIn cardMark c = true → detectMessageType c = .card) ∧
      (infixIn mediaMark c = false → infixIn voiceMark c = false →
        infixIn cardMark c = false → detectMessageType c = .text)) := by
  constructor
  · intro lines msgs h m hm
    have hcl : m.mtype = classifyW m.content := by
      unfold parseW at h
      cases hr : runW initSt lines with
      | error e => rw [hr] at h; cases h
      | ok st =>
        rw [hr] at h
        obtain rfl := (Except.ok.inj h).symm
        obtain ⟨hg, _, _⟩ := runW_good hr goodInit
        exact ((sealP_good hg).2.2 m hm).1
    refine ⟨hcl, ?_, ?_, ?_⟩
    · intro hmedia
      rw [hcl]
      unfold classifyW
      rw [hmedia]
      rfl
    · intro hmedia hurl
      rw [hcl]
      unfold classifyW
      rw [hmedia, hurl]
      rfl
    · intro hmedia hurl
      rw [hcl]
      unfold classifyW
      rw [hmedia, hurl]
      rfl
  · intro c
    refine ⟨?_, ?_, ?_, ?_⟩
    · intro hmedia
      unfold detectMessageType
      rw [hmedia]
      rfl
    · intro hmedia hvo
      unfold detectMessageType
      rw [hmedia, hvo]
      rfl
    · intro hmedia hvo hca
      unfold detectMessageType
      rw [hmedia, hvo, hca]
      rfl
    · intro hmedia hvo hca
      unfold detectMessageType
      rw [hmedia, hvo, hca]
      rfl

theorem c5_witness :
    parseW [s2l "[01/02/2023, 14:30:05] Alice: https://pics.example/1",
        s2l "<Media omitted>"] =
      .ok [⟨"msg_1", ⟨2023, 2, 1, 14, 30, 5⟩, 0, s2l "Alice",
        s2l "https://pics.example/1\n<Media omitted>", "media"⟩] ∧
    (⟨"msg_1", ⟨2023, 2, 1, 14, 30, 5⟩, 0, s2l "Alice",
      s2l "https://pics.example/1\n<Media omitted>", "media"⟩ : WMsg).mtype =
      "media" :=
  ⟨by rfl,
    ((c5_amended_classification.1
      [s2l "[01/02/2023, 14:30:05] Alice: https://pics.example/1",
       s2l "<Media omitted>"]
      [⟨"msg_1", ⟨2023, 2, 1, 14, 30, 5⟩, 0, s2l "Alice",
        s2l "https://pics.example/1\n<Media omitted>", "media"⟩]
      (by rfl) _ (List.mem_singleton.2 rfl)).2.1 (by decide))⟩

/-- C6 counterexample: `parse_whatsapp_chat` does not trim the captured
sender: with two spaces after the bracket the emitted sender is
`" Alice "`, which differs from its trimmed form. -/
theorem c6_counterexample :
    parseW [s2l "[01/02/2023, 14:30:05]  Alice : hi"] =
      .ok [⟨"msg_1", ⟨2023, 2, 1, 14, 30, 5⟩, 0, s2l " Alice ",
        s2l "hi", "text"⟩] ∧
    trimL (s2l " Alice ") ≠ s2l " Alice " :=
  ⟨rfl, by decide⟩

/-- C6 (amended): `parse_whatsapp_chat` stores the header grammar's
captured sender text verbatim (no trimming, no other normalization);
only `ChatParser::parse_chat` trims surrounding whitespace from the
captured sender, and it applies no normalization beyond that trim. -/
theorem c6_amended_sender :
    (∀ (pre : List Line) (hl : Line) (cs rest : List Line)
        (ts sd ct : Line) (dt : NDT) (msgs : List WMsg),
      headerCapture hl = some (ts, sd, ct) →
      isSysContent ct = false →
      parseWTimestamp ts = .ok dt →
      (∀ c ∈ cs, headerCapture c = none) →
      (rest = [] ∨ ∃ r rs y, rest = r :: rs ∧ headerCapture r = some y) →
      parseW (pre ++ hl :: (cs ++ rest)) = .ok msgs →
      ∃ n m, msgs.get? n = some m ∧ m.sender = sd) ∧
    (∀ (offs : Nat → Int) (lines : List Line) (msgs : List CMsg),
      parseChat offs lines = .ok msgs →
      ∀ m ∈ msgs, ∃ l ∈ lines, ∃ x, msgPattern l = some x ∧
        m.sender = trimL x.2.1) := by
  constructor
  · intro pre hl cs rest ts sd ct dt msgs hh hns hts hcs hrest hp
    obtain ⟨n, hn⟩ := parseW_block hh hns hts hcs hrest hp
    exact ⟨n, _, hn, rfl⟩
  · intro offs lines msgs h m hm
    unfold parseChat at h
    cases hr : runC offs ⟨[], 0⟩ lines with
    | error e => rw [hr] at h; cases h
    | ok st =>
      rw [hr] at h
      obtain rfl := (Except.ok.inj h).symm
      obtain ⟨_, hmem, _⟩ := runC_main hr
      rcases hmem m hm with hin | ⟨l, hl2, x, hx, hsd, _, _⟩
      · cases hin
      · exact ⟨l, hl2, x, hx, hsd⟩

theorem c6_witness :
    (∃ n m, ([⟨"msg_1", ⟨2023, 2, 1, 14, 30, 5⟩, 0, s2l " Alice ",
        s2l "hi", "text"⟩] : List WMsg).get? n = some m ∧
      m.sender = s2l " Alice ") ∧
    (∃ l ∈ [s2l "[01/02/23, 14:30:05]  Alice : hi"], ∃ x,
      msgPattern l = some x ∧
      (⟨⟨2023, 2, 1, 14, 30, 5⟩, 0, s2l "Alice", s2l "hi",
        CType.text⟩ : CMsg).sender = trimL x.2.1) :=
  ⟨c6_amended_sender.1 [] (s2l "[01/02/2023, 14:30:05]  Alice : hi") [] []
      (s2l "01/02/2023, 14:30:05") (s2l " Alice ") (s2l "hi")
      ⟨2023, 2, 1, 14, 30, 5⟩
      [⟨"msg_1", ⟨2023, 2, 1, 14, 30, 5⟩, 0, s2l " Alice ", s2l "hi", "text"⟩]
      (by rfl) (by rfl) (by rfl) (by decide) (Or.inl rfl) (by rfl),
    c6_amended_sender.2 (fun _ => 0) [s2l "[01/02/23, 14:30:05]  Alice : hi"]
      [⟨⟨2023, 2, 1, 14, 30, 5⟩, 0, s2l "Alice", s2l "hi", CType.text⟩]
      (by rfl) _ (List.mem_singleton.2 rfl)⟩

/-- C7 counterexample: `ChatParser::parse_timestamp` queries
`Local::now().offset()` once per parsed line; with an ambient offset that
changes between the two queries (modelled by the oracle `3600 * n`), the
two messages of a single run carry different offsets, contradicting the
claim that one offset is fixed per run. -/
theorem c7_counterexample :
    parseChat (fun n => 3600 * n)
      [s2l "[01/02/23, 14:30:05] Alice: a", s2l "[01/02/23, 14:31:06] Bob: b"] =
      .ok [⟨⟨2023, 2, 1, 14, 30, 5⟩, 0, s2l "Alice", s2l "a", CType.text⟩,
           ⟨⟨2023, 2, 1, 14, 31, 6⟩, 3600, s2l "Bob", s2l "b", CType.text⟩] ∧
    (0 : Int) ≠ 3600 :=
  ⟨rfl, by decide⟩

/-- C7 (amended): `parse_whatsapp_chat` interprets every timestamp with
the fixed UTC offset (0) for the whole run; `ChatParser::parse_timestamp`
re-queries the current local offset at each call, so all messages of a run
share one offset only when the queried offset stays constant during the
run. -/
theorem c7_amended_offset :
    (∀ (lines : List Line) (msgs : List WMsg), parseW lines = .ok msgs →
      ∀ m ∈ msgs, m.tsOffset = 0) ∧
    (∀ (offs : Nat → Int) (c : Int) (lines : List Line) (msgs : List CMsg),
      (∀ n, offs n = c) → parseChat offs lines = .ok msgs →
      ∀ m ∈ msgs, m.offset = c) := by
  constructor
  · intro lines msgs h m hm
    unfold parseW at h
    cases hr : runW initSt lines with
    | error e => rw [hr] at h; cases h
    | ok st =>
      rw [hr] at h
      obtain rfl := (Except.ok.inj h).symm
      obtain ⟨hg, _, _⟩ := runW_good hr goodInit
      exact ((sealP_good hg).2.2 m hm).2
  · intro offs c lines msgs hc h m hm
    unfold parseChat at h
    cases hr : runC offs ⟨[], 0⟩ lines with
    | error e => rw [hr] at h; cases h
    | ok st =>
      rw [hr] at h
      obtain rfl := (Except.ok.inj h).symm
      obtain ⟨_, _, hoff⟩ := runC_main hr
      rcases hoff c hc m hm with hin | hoffm
      · cases hin
      · exact hoffm

theorem c7_witness :
    (∀ m ∈ ([⟨"msg_1", ⟨2023, 2, 1, 14, 30, 5⟩, 0, s2l "Alice",
        s2l "Hello there\nhow are you?", "text"⟩] : List WMsg),
      m.tsOffset = 0) ∧
    (∀ m ∈ ([⟨⟨2023, 2, 1, 14, 30, 5⟩, 19800, s2l "Alice", s2l "a", CType.text⟩,
        ⟨⟨2023, 2, 1, 14, 31, 6⟩, 19800, s2l "Bob", s2l "b", CType.text⟩] :
          List CMsg),
      m.offset = 19800) :=
  ⟨c7_amended_offset.1
      [s2l "[01/02/2023, 14:30:05] Alice: Hello there",
       s2l "how are you?",
       s2l "[01/02/2023, 14:31:00] Bob: <Media omitted>"]
      [⟨"msg_1", ⟨2023, 2, 1, 14, 30, 5⟩, 0, s2l "Alice",
        s2l "Hello there\nhow are you?", "text"⟩] (by rfl),
    c7_amended_offset.2 (fun _ => 19800) 19800
      [s2l "[01/02/23, 14:30:05] Alice: a", s2l "[01/02/23, 14:31:06] Bob: b"]
      [⟨⟨2023, 2, 1, 14, 30, 5⟩, 19800, s2l "Alice", s2l "a", CType.text⟩,
       ⟨⟨2023, 2, 1, 14, 31, 6⟩, 19800, s2l "Bob", s2l "b", CType.text⟩]
      (fun _ => rfl) (by rfl)⟩

/-- C8: a header-matching line whose captured content matches a
system/control pattern seals and emits any pending accumulator (the seal
happens before the system check) but itself produces no message and leaves
no accumulator; and for the Scenario C input the parse emits zero
messages. -/
theorem c8_system_header_no_message :
    (∀ (st : PSt) (l ts sd ct : Line),
      headerCapture l = some (ts, sd, ct) → isSysContent ct = true →
      stepLine st l = .ok ⟨(sealP st).msgs, (sealP st).mid, none⟩) ∧
    parseW [s2l "01/02/2023, 09:00:00 AM - Security code changed"] =
      .ok [] :=
  ⟨fun st _ _ _ _ hc hs => stepLine_header_sys st hc hs, rfl⟩

theorem c8_witness :
    stepLine
      ⟨[], 0, some ⟨⟨2023, 2, 1, 14, 30, 5⟩, s2l "Alice", s2l "hi"⟩⟩
      (s2l "[01/02/2023, 14:31:00] Bob: <Media omitted>") =
      .ok ⟨(sealP ⟨[], 0,
          some ⟨⟨2023, 2, 1, 14, 30, 5⟩, s2l "Alice", s2l "hi"⟩⟩).msgs,
        (sealP ⟨[], 0,
          some ⟨⟨2023, 2, 1, 14, 30, 5⟩, s2l "Alice", s2l "hi"⟩⟩).mid,
        none⟩ :=
  c8_system_header_no_message.1
    ⟨[], 0, some ⟨⟨2023, 2, 1, 14, 30, 5⟩, s2l "Alice", s2l "hi"⟩⟩
    (s2l "[01/02/2023, 14:31:00] Bob: <Media omitted>")
    (s2l "01/02/2023, 14:31:00") (s2l "Bob") (s2l "<Media omitted>")
    (by rfl) (by rfl)

/-- C9: both error kinds propagate immediately and the call returns no
messages at all: whatever was sealed while processing a prefix of the
input, an io error on a later line item, or a header line whose timestamp
fails to parse, makes the whole call return exactly the error (not a
message list). -/
theorem c9_all_or_nothing :
    (∀ (pre : List (Except String Line)) (em : String)
        (suf : List (Except String Line)) (st : PSt),
      runR initSt pre = .ok st →
      parseWR (pre ++ .error em :: suf) =
        .error (.ioError ("Failed to read line: " ++ em))) ∧
    (∀ (pre : List (Except String Line)) (l : Line)
        (suf : List (Except String Line)) (st : PSt)
        (ts sd ct : Line) (e : String),
      runR initSt pre = .ok st →
      headerCapture l = some (ts, sd, ct) → isSysContent ct = false →
      parseWTimestamp ts = .error e →
      parseWR (pre ++ .ok l :: suf) =
        .error (.invalidTimestamp ("Failed to parse timestamp: " ++ e))) := by
  constructor
  · intro pre em suf st hpre
    unfold parseWR
    rw [runR_append, hpre]
    rfl
  · intro pre l suf st ts sd ct e hpre hc hs ht
    have hstep : stepR st (.ok l) =
        .error (.invalidTimestamp ("Failed to parse timestamp: " ++ e)) :=
      stepLine_header_bad st hc hs ht
    have hrun : runR st (.ok l :: suf) =
        .error (.invalidTimestamp ("Failed to parse timestamp: " ++ e)) := by
      rw [runR_cons, hstep]
    have hall : runR initSt (pre ++ .ok l :: suf) =
        .error (.invalidTimestamp ("Failed to parse timestamp: " ++ e)) := by
      rw [runR_append, hpre]
      exact hrun
    unfold parseWR
    rw [hall]

theorem c9_witness :
    parseWR [.ok (s2l "[01/02/2023, 14:30:05] Alice: Hello there"),
        .error "disk"] =
      .error (.ioError ("Failed to read line: " ++ "disk")) ∧
    parseWR [.ok (s2l "[01/02/2023, 14:30:05] Alice: Hello there"),
        .ok (s2l "[1/2/2023, 14:30:05] Alice: hi")] =
      .error (.invalidTimestamp ("Failed to parse timestamp: " ++
        "Timestamp doesn't match expected format")) :=
  ⟨c9_all_or_nothing.1 [.ok (s2l "[01/02/2023, 14:30:05] Alice: Hello there")]
      "disk" []
      ⟨[], 0, some ⟨⟨2023, 2, 1, 14, 30, 5⟩, s2l "Alice", s2l "Hello there"⟩⟩
      (by rfl),
    c9_all_or_nothing.2 [.ok (s2l "[01/02/2023, 14:30:05] Alice: Hello there")]
      (s2l "[1/2/2023, 14:30:05] Alice: hi") []
      ⟨[], 0, some ⟨⟨2023, 2, 1, 14, 30, 5⟩, s2l "Alice", s2l "Hello there"⟩⟩
      (s2l "1/2/2023, 14:30:05") (s2l "Alice") (s2l "hi")
      "Timestamp doesn't match expected format"
      (by rfl) (by rfl) (by rfl) (by rfl)⟩

/-- C10: in `ChatParser::parse_chat` a line that does not match the single
header pattern is discarded outright (never appended as a continuation):
when the call succeeds, the emitted contents are, in order, exactly the
trimmed trailing texts of the header-matching lines, there is exactly one
message per header-matching line, and no content contains a line
separator. -/
theorem c10_no_continuations :
    ∀ (offs : Nat → Int) (lines : List Line) (msgs : List CMsg),
      parseChat offs lines = .ok msgs →
      msgs.map CMsg.content =
        (lines.filterMap msgPattern).map (fun x => trimL x.2.2) ∧
      msgs.length = (lines.filter fun l => (msgPattern l).isSome).length ∧
      ∀ m ∈ msgs, '\n' ∉ m.content := by
  intro offs lines msgs h
  unfold parseChat at h
  cases hr : runC offs ⟨[], 0⟩ lines with
  | error e => rw [hr] at h; cases h
  | ok st =>
  rw [hr] at h
  obtain rfl := (Except.ok.inj h).symm
  obtain ⟨hcont, hmem, _⟩ := runC_main hr
  simp only [List.map_nil, List.nil_append] at hcont
  refine ⟨hcont, ?_, ?_⟩
  · have h1 : st.msgs.length = (st.msgs.map CMsg.content).length :=
      (List.length_map _ _).symm
    rw [h1, hcont, List.length_map]
    exact length_filterMap_isSome msgPattern lines
  · intro m hm
    rcases hmem m hm with hin | ⟨l, _, x, hx, _, hct, _⟩
    · cases hin
    · rw [hct]
      intro hmemnl
      exact msgPattern_noNl hx (mem_trimL hmemnl)

theorem c10_witness :
    ([⟨⟨2023, 2, 1, 14, 30, 5⟩, 0, s2l "Alice", s2l "hi", CType.text⟩,
      ⟨⟨2023, 2, 2, 10, 0, 0⟩, 0, s2l "Bob", s2l "yo", CType.text⟩] :
        List CMsg).map CMsg.content =
      (([s2l "[01/02/23, 14:30:05] Alice: hi", s2l "cont line",
         s2l "[02/02/23, 10:00:00] Bob: yo"]).filterMap msgPattern).map
        (fun x => trimL x.2.2) ∧
    ([⟨⟨2023, 2, 1, 14, 30, 5⟩, 0, s2l "Alice", s2l "hi", CType.text⟩,
      ⟨⟨2023, 2, 2, 10, 0, 0⟩, 0, s2l "Bob", s2l "yo", CType.text⟩] :
        List CMsg).length =
      (([s2l "[01/02/23, 14:30:05] Alice: hi", s2l "cont line",
         s2l "[02/02/23, 10:00:00] Bob: yo"]).filter
        fun l => (msgPattern l).isSome).length ∧
    ∀ m ∈ ([⟨⟨2023, 2, 1, 14, 30, 5⟩, 0, s2l "Alice", s2l "hi", CType.text⟩,
      ⟨⟨2023, 2, 2, 10, 0, 0⟩, 0, s2l "Bob", s2l "yo", CType.text⟩] :
        List CMsg), '\n' ∉ m.content :=
  c10_no_continuations (fun _ => 0)
    [s2l "[01/02/23, 14:30:05] Alice: hi", s2l "cont line",
     s2l "[02/02/23, 10:00:00] Bob: yo"]
    [⟨⟨2023, 2, 1, 14, 30, 5⟩, 0, s2l "Alice", s2l "hi", CType.text⟩,
     ⟨⟨2023, 2, 2, 10, 0, 0⟩, 0, s2l "Bob", s2l "yo", CType.text⟩]
    (by rfl)
